import Mathlib

/-!
Verification of the DBO explorer matching/scoring engine
(`tools/explorer/lib/ontology_wrapper.py` of DB-Engineering/digitalbuildings).

The wrapper code under `src/` is embedded directly.  The small data-model
classes it imports (`lib/model.py`: `StandardField`, `EntityTypeField`,
`Match`, `StandardizeField`) and the validator classes
(`EntityType`, `ConfigUniverse`) are not part of the provided sources, so
they are modelled from the specification, as marked on each definition.
-/

deriving instance DecidableEq for Except

namespace DBO

/-- Modelled from the spec: `StandardField` of the missing `lib/model.py` —
the FieldIdentity value type `{namespace, name}`, equality by the pair. -/
structure StandardField where
  namespace_name : String
  standard_field_name : String
deriving DecidableEq, Repr

/-- Modelled from the spec: `EntityTypeField` of the missing `lib/model.py` —
a FieldDefinition: a FieldIdentity plus an `optional` flag and an increment
suffix. -/
structure EntityTypeField where
  namespace_name : String
  standard_field_name : String
  is_optional : Bool
  increment : String
deriving DecidableEq, Repr

/-- Modelled from the spec: `model.StandardizeField` of the missing
`lib/model.py` — projects a field definition down to its identity
(namespace + name), discarding optionality and increment. -/
def StandardizeField (f : EntityTypeField) : StandardField :=
  ⟨f.namespace_name, f.standard_field_name⟩

/-- Modelled from the spec: `EntityType` of the missing validator library
`yamlformat/validator/entity_type_lib.py` — a CanonicalType carrying its
abstractness flag, the values of its (possibly inheritance-flattened)
`GetAllFields()` mapping, the `inherited_fields_expanded` flag, and its
unqualified parent-type names. -/
structure EntityType where
  is_abstract : Bool
  all_fields : List EntityTypeField
  inherited_fields_expanded : Bool
  unqualified_parent_names : List String
deriving DecidableEq, Repr

/-- Modelled from the spec: a type namespace of the missing validator
library — the values of its `valid_types_map`. -/
structure TypeNamespace where
  valid_types_map : List EntityType
deriving DecidableEq, Repr

/-- Modelled from the spec: `ConfigUniverse` of the missing
`presubmit_validate_types_lib.py` — the root read-only structure: the
namespaces enumerated by `GetEntityTypeNamespaces()` and the
`(namespace, type name)` lookup of `entity_type_universe.GetEntityType`. -/
structure ConfigUniverse where
  type_namespaces : List TypeNamespace
  getEntityType : String → String → Option EntityType

/-- Modelled from the spec: `Match` of the missing `lib/model.py` — an
immutable result tying one concrete field list to one CanonicalType and the
computed score. -/
structure Match where
  field_list : List StandardField
  entity_type : EntityType
  match_score : ℚ
deriving DecidableEq, Repr

/-- Embeds `OntologyWrapper._CalculateMatchScore`.  Python float arithmetic
on the small integer ratios involved is modelled exactly by ℚ.  The raised
`ValueError` is modelled as `Except.error` with the source's message. -/
def CalculateMatchScore (concrete_fields : Finset StandardField)
    (canonical_fields : Finset EntityTypeField) : Except String ℚ :=
  let required_canonical_fields : Finset StandardField :=
    (canonical_fields.filter fun f => f.is_optional = false).image StandardizeField
  let standard_canonical_fields : Finset StandardField :=
    canonical_fields.image StandardizeField
  let ma := (concrete_fields ∩ standard_canonical_fields).card
  let mr := (concrete_fields ∩ required_canonical_fields).card
  let tr := required_canonical_fields.card
  let c := concrete_fields.card
  let e := (concrete_fields \ standard_canonical_fields).card
  let a := (required_canonical_fields \ concrete_fields).card
  if c ≤ 0 then
    Except.error "Concrete field set cannot be empty."
  else if tr ≤ 0 then
    Except.ok ((((ma : ℚ) - (e : ℚ)) / (c : ℚ)) / 2)
  else
    Except.ok (((((ma : ℚ) - (e : ℚ)) / (c : ℚ)) + (((mr : ℚ) - (a : ℚ)) / (tr : ℚ))) / 2)

/-- The score formula as the spec words it (§4.3): derived sets `StdC`,
`StdR`, counts `ma, mr, tr, c, e, a`, and the two-branch average.  Written
from the spec's sentences, to be compared with `CalculateMatchScore`. -/
def specMatchScore (F : Finset StandardField) (C : Finset EntityTypeField) : ℚ :=
  let StdC : Finset StandardField := C.image StandardizeField
  let StdR : Finset StandardField := (C.filter fun f => f.is_optional = false).image StandardizeField
  let ma := (F ∩ StdC).card
  let mr := (F ∩ StdR).card
  let tr := StdR.card
  let c := F.card
  let e := (F \ StdC).card
  let a := (StdR \ F).card
  if tr = 0 then (((ma : ℚ) - (e : ℚ)) / (c : ℚ)) / 2
  else ((((ma : ℚ) - (e : ℚ)) / (c : ℚ)) + (((mr : ℚ) - (a : ℚ)) / (tr : ℚ))) / 2

/-- The worked example's canonical type (spec §8): required fields
`temperature` and `occupancy`, optional field `humidity`. -/
def roomCanonicalFields : Finset EntityTypeField :=
  { ⟨"", "temperature", false, ""⟩, ⟨"", "occupancy", false, ""⟩,
    ⟨"", "humidity", true, ""⟩ }

/-- The worked example's first concrete set: `{temperature, occupancy}`. -/
def roomConcrete1 : Finset StandardField :=
  { ⟨"", "temperature"⟩, ⟨"", "occupancy"⟩ }

/-- The worked example's second concrete set: `{temperature, pressure}`. -/
def roomConcrete2 : Finset StandardField :=
  { ⟨"", "temperature"⟩, ⟨"", "pressure"⟩ }

/-- The ascending comparison on matches used by the sort in
`GetEntityTypesFromFields` (`key=lambda x: x.GetMatchScore()`). -/
def Match.le (x y : Match) : Prop :=
  x.match_score ≤ y.match_score

instance : DecidableRel Match.le := fun x y =>
  inferInstanceAs (Decidable (x.match_score ≤ y.match_score))

instance : IsTotal Match Match.le := ⟨fun x y => le_total x.match_score y.match_score⟩

instance : IsTrans Match Match.le := ⟨fun _ _ _ h h' => le_trans h h'⟩

/-- The ascending comparison on fields used by the sort in
`GetFieldsForTypeName` (`key=lambda x: x.GetStandardFieldName()`);
`GetStandardFieldName` is modelled from the spec as the local name of the
field, without its namespace. -/
def fieldNameLe (x y : EntityTypeField) : Prop :=
  x.standard_field_name ≤ y.standard_field_name

instance : DecidableRel fieldNameLe := fun x y =>
  inferInstanceAs (Decidable (x.standard_field_name ≤ y.standard_field_name))

instance : IsTotal EntityTypeField fieldNameLe :=
  ⟨fun x y => le_total x.standard_field_name y.standard_field_name⟩

instance : IsTrans EntityTypeField fieldNameLe := ⟨fun _ _ _ h h' => le_trans h h'⟩

/-- Embeds `OntologyWrapper.__init__`'s `self.match_score_threshold = -0.5`. -/
def match_score_threshold : ℚ := -(1 / 2)

/-- The shared stem of the two `ValueError` messages of
`GetFieldsForTypeName` (the `f`-string interpolation written as appends). -/
def undefinedStem (entity_type_name : String) : String :=
  "\n" ++ entity_type_name ++ " is not defined in "

/-- The `ValueError` message for a lookup miss with an empty namespace. -/
def undefinedGlobalMsg (entity_type_name : String) : String :=
  undefinedStem entity_type_name ++ "global namespace."

/-- The `ValueError` message for a lookup miss inside a given namespace. -/
def undefinedNamespaceMsg (ns entity_type_name : String) : String :=
  undefinedStem entity_type_name ++ ("namespace: " ++ ns ++ ".")

/-- The `Exception` message raised when inherited fields are not expanded. -/
def inheritanceMsg : String :=
  "Inherited fields must be expanded to query fields.\n" ++
    "Run NamespaceValidator on your ConfigUniverse to expand fields."

/-- Embeds `OntologyWrapper.GetFieldsForTypeName`.  Raised `ValueError`s and
the inheritance `Exception` become `Except.error` with the source's
messages. -/
def GetFieldsForTypeName (u : ConfigUniverse) (ns entity_type_name : String)
    (required_only : Bool) : Except String (List EntityTypeField) :=
  match u.getEntityType ns entity_type_name with
  | none =>
    if ns = "" then
      Except.error (undefinedGlobalMsg entity_type_name)
    else
      Except.error (undefinedNamespaceMsg ns entity_type_name)
  | some entity_type =>
    if entity_type.inherited_fields_expanded = false then
      Except.error inheritanceMsg
    else
      let entity_type_fields := entity_type.all_fields
      let entity_type_fields :=
        if required_only then
          entity_type_fields.filter fun f => !f.is_optional
        else entity_type_fields
      Except.ok (entity_type_fields.insertionSort fieldNameLe)

/-- Embeds `OntologyWrapper._CreateMatch`: the concrete field list is
converted to a `frozenset` (here `List.toFinset`), the canonical type's
field values to a set, and the score computed; the Python exception from an
empty concrete set propagates. -/
def CreateMatch (field_list : List StandardField) (entity_type : EntityType) :
    Except String Match :=
  match CalculateMatchScore field_list.toFinset entity_type.all_fields.toFinset with
  | Except.error e => Except.error e
  | Except.ok match_score => Except.ok ⟨field_list, entity_type, match_score⟩

/-- Modelled from the spec: Python's `str.upper()` on the identifiers
involved — uppercase every character. -/
def upper (s : String) : String :=
  ⟨s.data.map Char.toUpper⟩

/-- The candidate-enumeration loop of `GetEntityTypesFromFields`
(lines 212-222): every type of every namespace, skipping abstract types and
types whose `GetAllFields()` is empty; with a general type, kept only when
the uppercased tag is among the type's unqualified parent names. -/
def candidateTypes (u : ConfigUniverse) (general_type : Option String) :
    List EntityType :=
  (u.type_namespaces.flatMap fun tns => tns.valid_types_map).filter fun et =>
    !et.is_abstract && !et.all_fields.isEmpty &&
      (match general_type with
       | some g => et.unqualified_parent_names.contains (upper g)
       | none => true)

/-- The scoring loop of `GetEntityTypesFromFields` (lines 224-226): build a
`Match` for each candidate in order; a raised exception propagates. -/
def buildMatches (field_list : List StandardField) :
    List EntityType → Except String (List Match)
  | [] => Except.ok []
  | et :: rest =>
    match CreateMatch field_list et with
    | Except.error e => Except.error e
    | Except.ok m =>
      match buildMatches field_list rest with
      | Except.error e => Except.error e
      | Except.ok ms => Except.ok (m :: ms)

/-- Embeds `OntologyWrapper.GetEntityTypesFromFields`: enumerate candidates,
score each, sort ascending by score (Python's `sorted` is stable, as is
`List.insertionSort`), and with `best_fit` keep only matches whose score
strictly exceeds the threshold. -/
def GetEntityTypesFromFields (u : ConfigUniverse)
    (field_list : List StandardField) (general_type : Option String)
    (best_fit : Bool) : Except String (List Match) :=
  match buildMatches field_list (candidateTypes u general_type) with
  | Except.error e => Except.error e
  | Except.ok match_list =>
    let match_list_sorted := match_list.insertionSort Match.le
    if best_fit then
      Except.ok (match_list_sorted.filter fun m =>
        decide (match_score_threshold < m.match_score))
    else
      Except.ok match_list_sorted

lemma sub_div_bounds (m e c : ℕ) (hme : m + e = c) (hc : 0 < c) :
    -1 ≤ ((m : ℚ) - (e : ℚ)) / (c : ℚ) ∧ ((m : ℚ) - (e : ℚ)) / (c : ℚ) ≤ 1 := by
  have hc' : (0 : ℚ) < (c : ℚ) := by exact_mod_cast hc
  have hme' : (m : ℚ) + (e : ℚ) = (c : ℚ) := by exact_mod_cast hme
  have hm : (0 : ℚ) ≤ (m : ℚ) := Nat.cast_nonneg m
  have he : (0 : ℚ) ≤ (e : ℚ) := Nat.cast_nonneg e
  constructor
  · rw [le_div_iff₀ hc']
    linarith
  · rw [div_le_one hc']
    linarith

lemma calcMatchScore_eq_spec (F : Finset StandardField)
    (C : Finset EntityTypeField) (hF : F.Nonempty) :
    CalculateMatchScore F C = Except.ok (specMatchScore F C) := by
  have hc0 : ¬ F.card = 0 := by
    simpa [Finset.card_eq_zero] using hF.ne_empty
  simp only [CalculateMatchScore, specMatchScore, Nat.le_zero]
  rw [if_neg hc0, apply_ite Except.ok]

lemma specScore_room1 : specMatchScore roomConcrete1 roomCanonicalFields = 1 := by
  have h1 : (roomConcrete1 ∩ roomCanonicalFields.image StandardizeField).card = 2 := by
    decide
  have h2 : (roomConcrete1 ∩
      ((roomCanonicalFields.filter fun f => f.is_optional = false).image
        StandardizeField)).card = 2 := by decide
  have h3 : ((roomCanonicalFields.filter fun f => f.is_optional = false).image
      StandardizeField).card = 2 := by decide
  have h4 : roomConcrete1.card = 2 := by decide
  have h5 : (roomConcrete1 \ roomCanonicalFields.image StandardizeField).card = 0 := by
    decide
  have h6 : (((roomCanonicalFields.filter fun f => f.is_optional = false).image
      StandardizeField) \ roomConcrete1).card = 0 := by decide
  simp only [specMatchScore, h1, h2, h3, h4, h5, h6]
  norm_num

lemma specScore_room2 : specMatchScore roomConcrete2 roomCanonicalFields = 0 := by
  have h1 : (roomConcrete2 ∩ roomCanonicalFields.image StandardizeField).card = 1 := by
    decide
  have h2 : (roomConcrete2 ∩
      ((roomCanonicalFields.filter fun f => f.is_optional = false).image
        StandardizeField)).card = 1 := by decide
  have h3 : ((roomCanonicalFields.filter fun f => f.is_optional = false).image
      StandardizeField).card = 2 := by decide
  have h4 : roomConcrete2.card = 2 := by decide
  have h5 : (roomConcrete2 \ roomCanonicalFields.image StandardizeField).card = 1 := by
    decide
  have h6 : (((roomCanonicalFields.filter fun f => f.is_optional = false).image
      StandardizeField) \ roomConcrete2).card = 1 := by decide
  simp only [specMatchScore, h1, h2, h3, h4, h5, h6]
  norm_num

lemma room1_nonempty : roomConcrete1.Nonempty := ⟨⟨"", "temperature"⟩, by decide⟩

lemma room2_nonempty : roomConcrete2.Nonempty := ⟨⟨"", "temperature"⟩, by decide⟩

lemma room1_score : CalculateMatchScore roomConcrete1 roomCanonicalFields = Except.ok 1 := by
  rw [calcMatchScore_eq_spec roomConcrete1 roomCanonicalFields room1_nonempty,
    specScore_room1]

lemma room2_score : CalculateMatchScore roomConcrete2 roomCanonicalFields = Except.ok 0 := by
  rw [calcMatchScore_eq_spec roomConcrete2 roomCanonicalFields room2_nonempty,
    specScore_room2]

/-- C1: for every non-empty concrete field set `F` and canonical field set
`C`, `_CalculateMatchScore` returns exactly the spec's formula
(`((ma - e)/c)/2` when `tr = 0`, else the average of the two terms, over the
spec's derived sets); and the worked example (required `temperature`,
`occupancy`; optional `humidity`) scores `1.0` on `{temperature, occupancy}`
and `0.0` on `{temperature, pressure}`. -/
theorem calculateMatchScore_eq_spec_formula_and_examples :
    (∀ (F : Finset StandardField) (C : Finset EntityTypeField), F.Nonempty →
      CalculateMatchScore F C = Except.ok (specMatchScore F C))
    ∧ CalculateMatchScore roomConcrete1 roomCanonicalFields = Except.ok 1
    ∧ CalculateMatchScore roomConcrete2 roomCanonicalFields = Except.ok 0 :=
  ⟨calcMatchScore_eq_spec, room1_score, room2_score⟩

/-- Witness for C1's universally quantified part at the worked example. -/
theorem calculateMatchScore_eq_spec_formula_witness :
    CalculateMatchScore roomConcrete1 roomCanonicalFields
      = Except.ok (specMatchScore roomConcrete1 roomCanonicalFields) :=
  calculateMatchScore_eq_spec_formula_and_examples.1 roomConcrete1
    roomCanonicalFields ⟨⟨"", "temperature"⟩, by decide⟩

/-- C6: `_CalculateMatchScore` on an empty concrete field set fails with the
empty-field-set error and returns no score; on any non-empty concrete field
set that error is not raised and a score is returned. -/
theorem calculateMatchScore_empty_error_nonempty_ok :
    (∀ C : Finset EntityTypeField,
      CalculateMatchScore ∅ C = Except.error "Concrete field set cannot be empty.")
    ∧ (∀ (F : Finset StandardField) (C : Finset EntityTypeField), F.Nonempty →
        ∃ q : ℚ, CalculateMatchScore F C = Except.ok q) := by
  constructor
  · intro C
    simp [CalculateMatchScore]
  · intro F C hF
    have hc0 : ¬ F.card ≤ 0 := by
      simpa [Nat.le_zero, Finset.card_eq_zero] using hF.ne_empty
    simp only [CalculateMatchScore]
    rw [if_neg hc0]
    split
    · exact ⟨_, rfl⟩
    · exact ⟨_, rfl⟩

/-- Witness for C6's non-empty part at the worked example. -/
theorem calculateMatchScore_empty_error_nonempty_ok_witness :
    ∃ q : ℚ, CalculateMatchScore roomConcrete1 roomCanonicalFields = Except.ok q :=
  calculateMatchScore_empty_error_nonempty_ok.2 roomConcrete1 roomCanonicalFields
    ⟨⟨"", "temperature"⟩, by decide⟩

/-- C2: every score `_CalculateMatchScore` returns on a non-empty concrete
field set lies in the closed interval `[-1, 1]`. -/
theorem calculateMatchScore_range :
    ∀ (F : Finset StandardField) (C : Finset EntityTypeField) (q : ℚ),
      F.Nonempty → CalculateMatchScore F C = Except.ok q → -1 ≤ q ∧ q ≤ 1 := by
  intro F C q _ h
  simp only [CalculateMatchScore] at h
  set R : Finset StandardField :=
    (C.filter fun f => f.is_optional = false).image StandardizeField with hR
  set S : Finset StandardField := C.image StandardizeField with hS
  by_cases hc : F.card ≤ 0
  · rw [if_pos hc] at h
    exact absurd h (by simp)
  · rw [if_neg hc] at h
    have hcpos : 0 < F.card := Nat.pos_of_ne_zero (by simpa [Nat.le_zero] using hc)
    have h1 := sub_div_bounds (F ∩ S).card (F \ S).card F.card
      (Finset.card_inter_add_card_sdiff F S) hcpos
    by_cases htr : R.card ≤ 0
    · rw [if_pos htr] at h
      rw [Except.ok.injEq] at h
      subst h
      constructor <;> [linarith [h1.1]; linarith [h1.2]]
    · rw [if_neg htr] at h
      rw [Except.ok.injEq] at h
      subst h
      have htrpos : 0 < R.card := Nat.pos_of_ne_zero (by simpa [Nat.le_zero] using htr)
      have hmr : (F ∩ R).card + (R \ F).card = R.card := by
        rw [Finset.inter_comm, Finset.card_inter_add_card_sdiff]
      have h2 := sub_div_bounds (F ∩ R).card (R \ F).card R.card hmr htrpos
      constructor <;> [linarith [h1.1, h2.1]; linarith [h1.2, h2.2]]

/-- Witness for C2 at the worked example. -/
theorem calculateMatchScore_range_witness : -1 ≤ (1 : ℚ) ∧ (1 : ℚ) ≤ 1 :=
  calculateMatchScore_range roomConcrete1 roomCanonicalFields 1
    room1_nonempty room1_score

/-- The worked example's canonical fields as the values of `GetAllFields()`. -/
def roomFieldsList : List EntityTypeField :=
  [⟨"", "temperature", false, ""⟩, ⟨"", "occupancy", false, ""⟩,
   ⟨"", "humidity", true, ""⟩]

/-- A concrete matchable canonical type for the worked example. -/
def etRoom : EntityType := ⟨false, roomFieldsList, true, ["FACILITIES"]⟩

/-- A second concrete canonical type, disjoint from the worked example. -/
def etPressure : EntityType := ⟨false, [⟨"", "pressure", false, ""⟩], true, []⟩

/-- The worked example's first concrete field set, as the caller's list. -/
def demoFieldList : List StandardField :=
  [⟨"", "temperature"⟩, ⟨"", "occupancy"⟩]

/-- A one-type demo universe. -/
def demoUniverse : ConfigUniverse :=
  ⟨[⟨[etRoom]⟩], fun ns tn =>
    if ns = "FACILITIES" ∧ tn = "ROOM" then some etRoom else none⟩

/-- A two-type demo universe. -/
def demoUniverse2 : ConfigUniverse :=
  ⟨[⟨[etRoom, etPressure]⟩], fun ns tn =>
    if ns = "FACILITIES" ∧ tn = "ROOM" then some etRoom else none⟩

/-- The canonical field set of `etPressure`. -/
def pressureCanonical : Finset EntityTypeField := { ⟨"", "pressure", false, ""⟩ }

lemma pressure_score :
    CalculateMatchScore roomConcrete1 pressureCanonical = Except.ok (-1) := by
  rw [calcMatchScore_eq_spec roomConcrete1 pressureCanonical room1_nonempty]
  have h1 : (roomConcrete1 ∩ pressureCanonical.image StandardizeField).card = 0 := by
    decide
  have h2 : (roomConcrete1 ∩
      ((pressureCanonical.filter fun f => f.is_optional = false).image
        StandardizeField)).card = 0 := by decide
  have h3 : ((pressureCanonical.filter fun f => f.is_optional = false).image
      StandardizeField).card = 1 := by decide
  have h4 : roomConcrete1.card = 2 := by decide
  have h5 : (roomConcrete1 \ pressureCanonical.image StandardizeField).card = 2 := by
    decide
  have h6 : (((pressureCanonical.filter fun f => f.is_optional = false).image
      StandardizeField) \ roomConcrete1).card = 1 := by decide
  simp only [specMatchScore, h1, h2, h3, h4, h5, h6]
  norm_num

lemma createMatch_room :
    CreateMatch demoFieldList etRoom = Except.ok ⟨demoFieldList, etRoom, 1⟩ := by
  have h1 : demoFieldList.toFinset = roomConcrete1 := by decide
  have h2 : etRoom.all_fields.toFinset = roomCanonicalFields := by decide
  simp only [CreateMatch, h1, h2, room1_score]

lemma createMatch_pressure :
    CreateMatch demoFieldList etPressure = Except.ok ⟨demoFieldList, etPressure, -1⟩ := by
  have h1 : demoFieldList.toFinset = roomConcrete1 := by decide
  have h2 : etPressure.all_fields.toFinset = pressureCanonical := by decide
  simp only [CreateMatch, h1, h2, pressure_score]

lemma candidates_demo : candidateTypes demoUniverse none = [etRoom] := by decide

lemma candidates_demo2 : candidateTypes demoUniverse2 none = [etRoom, etPressure] := by
  decide

lemma demo_run :
    GetEntityTypesFromFields demoUniverse demoFieldList none false
      = Except.ok [⟨demoFieldList, etRoom, 1⟩] := by
  simp only [GetEntityTypesFromFields, candidates_demo, buildMatches,
    createMatch_room, List.insertionSort, List.orderedInsert]
  rfl

lemma demo_run2 :
    GetEntityTypesFromFields demoUniverse2 demoFieldList none false
      = Except.ok [⟨demoFieldList, etPressure, -1⟩, ⟨demoFieldList, etRoom, 1⟩] := by
  simp only [GetEntityTypesFromFields, candidates_demo2, buildMatches,
    createMatch_room, createMatch_pressure, List.insertionSort, List.orderedInsert]
  have hle : ¬ Match.le ⟨demoFieldList, etRoom, 1⟩ ⟨demoFieldList, etPressure, -1⟩ := by
    simp only [Match.le]
    norm_num
  rw [if_neg hle]
  rfl

/-- C3: every list of matches returned by `GetEntityTypesFromFields` is
sorted by score in ascending order: each match's score is at most the next
one's. -/
theorem getEntityTypesFromFields_sorted_ascending :
    ∀ (u : ConfigUniverse) (field_list : List StandardField)
      (general_type : Option String) (best_fit : Bool) (ml : List Match),
      GetEntityTypesFromFields u field_list general_type best_fit = Except.ok ml →
      ∀ i (h : i + 1 < ml.length),
        (ml.get ⟨i, Nat.lt_of_succ_lt h⟩).match_score ≤
          (ml.get ⟨i + 1, h⟩).match_score := by
  intro u fl gt bf ml h i hi
  have hs : ml.Sorted Match.le := by
    simp only [GetEntityTypesFromFields] at h
    cases hb : buildMatches fl (candidateTypes u gt) with
    | error e => rw [hb] at h; cases h
    | ok l =>
      rw [hb] at h
      have hsorted : (l.insertionSort Match.le).Sorted Match.le :=
        List.sorted_insertionSort Match.le l
      cases bf with
      | false =>
        simp only [Bool.false_eq_true, if_false, Except.ok.injEq] at h
        exact h ▸ hsorted
      | true =>
        simp only [if_true, Except.ok.injEq] at h
        exact h ▸ hsorted.filter _
  exact hs.rel_get_of_lt (by exact Fin.mk_lt_mk.mpr (Nat.lt_succ_self i))

/-- Witness for C3 on a two-type universe. -/
theorem getEntityTypesFromFields_sorted_ascending_witness :
    ([(⟨demoFieldList, etPressure, -1⟩ : Match), ⟨demoFieldList, etRoom, 1⟩].get
        ⟨0, by decide⟩).match_score ≤
      ([(⟨demoFieldList, etPressure, -1⟩ : Match), ⟨demoFieldList, etRoom, 1⟩].get
        ⟨1, by decide⟩).match_score :=
  getEntityTypesFromFields_sorted_ascending demoUniverse2 demoFieldList none false
    [⟨demoFieldList, etPressure, -1⟩, ⟨demoFieldList, etRoom, 1⟩] demo_run2 0
    (by decide)

lemma demo_run_best :
    GetEntityTypesFromFields demoUniverse demoFieldList none true
      = Except.ok [⟨demoFieldList, etRoom, 1⟩] := by
  have hd : decide (match_score_threshold < (1 : ℚ)) = true :=
    decide_eq_true (by norm_num [match_score_threshold])
  simp only [GetEntityTypesFromFields, candidates_demo, buildMatches,
    createMatch_room, List.insertionSort, List.orderedInsert, if_true,
    List.filter_cons, List.filter_nil]
  simp [hd]

/-- C4 counterexample: on a universe with a single perfectly matching type,
`best_fit = true` returns the very same (non-empty) list as
`best_fit = false`, so the best-fit output is not a strict subset of the
full output. -/
theorem bestFit_not_strict_subset :
    GetEntityTypesFromFields demoUniverse demoFieldList none true
      = GetEntityTypesFromFields demoUniverse demoFieldList none false
    ∧ GetEntityTypesFromFields demoUniverse demoFieldList none false
      = Except.ok [⟨demoFieldList, etRoom, 1⟩] := by
  rw [demo_run_best, demo_run]
  exact ⟨rfl, rfl⟩

/-- C4 amended: `best_fit = true` returns exactly the matches of the
`best_fit = false` output whose score strictly exceeds the threshold — a
subset, but not a strict one in general — and the threshold's default value
is `-0.5`. -/
theorem bestFit_eq_threshold_filter :
    (∀ (u : ConfigUniverse) (fl : List StandardField) (gt : Option String),
      GetEntityTypesFromFields u fl gt true
        = Except.map
            (List.filter fun m => decide (match_score_threshold < m.match_score))
            (GetEntityTypesFromFields u fl gt false))
    ∧ match_score_threshold = -(1 / 2) := by
  refine ⟨?_, rfl⟩
  intro u fl gt
  simp only [GetEntityTypesFromFields]
  cases buildMatches fl (candidateTypes u gt) with
  | error e => rfl
  | ok l => rfl

lemma append_ne_of_data_ne (p s t : String) (h : s.data ≠ t.data) :
    p ++ s ≠ p ++ t := by
  intro he
  have hd := congrArg String.data he
  simp only [String.data_append] at hd
  exact h (List.append_cancel_left hd)

lemma suffix_data_ne (ns : String) :
    ("global namespace.").data ≠ ("namespace: " ++ ns ++ ".").data := by
  intro h
  have h2 : ("namespace: " ++ ns ++ ".").data
      = ("namespace: ").data ++ (ns.data ++ (".").data) := by
    simp [String.data_append, List.append_assoc]
  rw [h2] at h
  have hg : ("global namespace.").data = 'g' :: ("lobal namespace.").data := by decide
  have hn : ("namespace: ").data = 'n' :: ("amespace: ").data := by decide
  rw [hg, hn] at h
  simp at h

/-- An unexpanded canonical type, to exercise the inheritance precondition. -/
def etUnexpanded : EntityType := ⟨false, roomFieldsList, false, []⟩

/-- A universe whose single type has unexpanded inherited fields. -/
def failUniverse : ConfigUniverse :=
  ⟨[], fun ns tn => if ns = "A" ∧ tn = "T" then some etUnexpanded else none⟩

/-- C8: when the lookup resolves to a type whose inherited fields are not
expanded, `GetFieldsForTypeName` fails with the inheritance error and
returns no field list; when the lookup misses, it fails with the undefined
error whose message depends on whether the namespace is empty, and those two
messages are always distinct. -/
theorem getFieldsForTypeName_error_cases :
    (∀ (u : ConfigUniverse) (ns tn : String) (ro : Bool) (et : EntityType),
      u.getEntityType ns tn = some et → et.inherited_fields_expanded = false →
      GetFieldsForTypeName u ns tn ro = Except.error inheritanceMsg)
    ∧ (∀ (u : ConfigUniverse) (ns tn : String) (ro : Bool),
      u.getEntityType ns tn = none →
      GetFieldsForTypeName u ns tn ro = Except.error
        (if ns = "" then undefinedGlobalMsg tn else undefinedNamespaceMsg ns tn))
    ∧ (∀ ns tn : String, undefinedGlobalMsg tn ≠ undefinedNamespaceMsg ns tn) := by
  refine ⟨?_, ?_, ?_⟩
  · intro u ns tn ro et het hexp
    simp only [GetFieldsForTypeName, het, hexp, if_true]
  · intro u ns tn ro hnone
    simp only [GetFieldsForTypeName, hnone]
    rw [apply_ite Except.error]
  · intro ns tn
    exact append_ne_of_data_ne (undefinedStem tn) _ _ (suffix_data_ne ns)

/-- Witness for C8 on concrete universes. -/
theorem getFieldsForTypeName_error_cases_witness :
    GetFieldsForTypeName failUniverse "A" "T" false = Except.error inheritanceMsg
    ∧ GetFieldsForTypeName failUniverse "" "X" false = Except.error
        (if "" = "" then undefinedGlobalMsg "X" else undefinedNamespaceMsg "" "X")
    ∧ undefinedGlobalMsg "X" ≠ undefinedNamespaceMsg "B" "X" :=
  ⟨getFieldsForTypeName_error_cases.1 failUniverse "A" "T" false etUnexpanded
      (by decide) (by decide),
   getFieldsForTypeName_error_cases.2.1 failUniverse "" "X" false (by decide),
   getFieldsForTypeName_error_cases.2.2 "B" "X"⟩

lemma orderedInsert_of_forall {α : Type} (r : α → α → Prop) [DecidableRel r]
    (a : α) (m : List α) (hall : ∀ c ∈ m, r a c) :
    m.orderedInsert r a = a :: m := by
  cases m with
  | nil => rfl
  | cons c m => simp [List.orderedInsert, hall c (List.mem_cons_self c m)]

lemma orderedInsert_filter {α : Type} (r : α → α → Prop) [DecidableRel r]
    [IsTrans α r] (p : α → Bool) (a : α) (l : List α) (hs : l.Sorted r) :
    (l.orderedInsert r a).filter p =
      if p a = true then (l.filter p).orderedInsert r a else l.filter p := by
  induction l with
  | nil =>
    by_cases hpa : p a = true
    · simp [List.filter_cons, hpa]
    · simp [List.filter_cons, hpa]
  | cons b l ih =>
    by_cases hab : r a b
    · rw [List.orderedInsert_of_le r l hab]
      by_cases hpa : p a = true
      · rw [if_pos hpa, List.filter_cons, if_pos hpa]
        refine (orderedInsert_of_forall r a _ ?_).symm
        intro c hc
        have hc' : c ∈ b :: l := List.mem_of_mem_filter hc
        rcases List.mem_cons.mp hc' with h | h
        · exact h ▸ hab
        · exact Trans.trans hab (List.rel_of_sorted_cons hs c h)
      · rw [if_neg hpa, List.filter_cons, if_neg hpa]
    · simp only [List.orderedInsert, if_neg hab]
      have ihs := ih hs.of_cons
      by_cases hpb : p b = true
      · rw [List.filter_cons, if_pos hpb, List.filter_cons, if_pos hpb, ihs]
        by_cases hpa : p a = true
        · rw [if_pos hpa, if_pos hpa, List.orderedInsert, if_neg hab]
        · rw [if_neg hpa, if_neg hpa]
      · rw [List.filter_cons, if_neg hpb, List.filter_cons, if_neg hpb, ihs]

lemma insertionSort_filter {α : Type} (r : α → α → Prop) [DecidableRel r]
    [IsTotal α r] [IsTrans α r] (p : α → Bool) :
    ∀ l : List α, (l.insertionSort r).filter p = (l.filter p).insertionSort r
  | [] => rfl
  | a :: l => by
    rw [List.insertionSort,
      orderedInsert_filter r p a _ (List.sorted_insertionSort r l),
      insertionSort_filter r p l, List.filter_cons]
    by_cases hpa : p a = true
    · rw [if_pos hpa, if_pos hpa, List.insertionSort]
    · rw [if_neg hpa, if_neg hpa]

/-- C9: whenever both calls succeed, the `required_only = true` output of
`GetFieldsForTypeName` is exactly the `optional = false` filter of the
`required_only = false` output (Python's stable sort commutes with the
required-only filter). -/
theorem getFieldsForTypeName_required_filter :
    ∀ (u : ConfigUniverse) (ns tn : String) (l₁ l₂ : List EntityTypeField),
      GetFieldsForTypeName u ns tn true = Except.ok l₁ →
      GetFieldsForTypeName u ns tn false = Except.ok l₂ →
      l₁ = l₂.filter fun f => !f.is_optional := by
  intro u ns tn l₁ l₂ h₁ h₂
  cases hlook : u.getEntityType ns tn with
  | none =>
    simp only [GetFieldsForTypeName, hlook] at h₁
    split at h₁ <;> cases h₁
  | some et =>
    simp only [GetFieldsForTypeName, hlook] at h₁ h₂
    by_cases hexp : et.inherited_fields_expanded = false
    · rw [if_pos hexp] at h₁
      cases h₁
    · rw [if_neg hexp] at h₁ h₂
      simp only [if_true, Except.ok.injEq] at h₁ h₂
      subst h₁
      subst h₂
      exact (insertionSort_filter fieldNameLe (fun f => !f.is_optional)
        et.all_fields).symm

lemma demo_lookup : demoUniverse.getEntityType "FACILITIES" "ROOM" = some etRoom := by
  decide

lemma demo_fields_true :
    GetFieldsForTypeName demoUniverse "FACILITIES" "ROOM" true
      = Except.ok [⟨"", "occupancy", false, ""⟩, ⟨"", "temperature", false, ""⟩] := by
  simp only [GetFieldsForTypeName, demo_lookup, etRoom, roomFieldsList]
  simp +decide [List.insertionSort, List.orderedInsert, fieldNameLe, List.filter]

lemma demo_fields_false :
    GetFieldsForTypeName demoUniverse "FACILITIES" "ROOM" false
      = Except.ok [⟨"", "humidity", true, ""⟩, ⟨"", "occupancy", false, ""⟩,
          ⟨"", "temperature", false, ""⟩] := by
  simp only [GetFieldsForTypeName, demo_lookup, etRoom, roomFieldsList]
  simp +decide [List.insertionSort, List.orderedInsert, fieldNameLe]

/-- Witness for C9 on the worked-example type. -/
theorem getFieldsForTypeName_required_filter_witness :
    [(⟨"", "occupancy", false, ""⟩ : EntityTypeField),
        ⟨"", "temperature", false, ""⟩]
      = [(⟨"", "humidity", true, ""⟩ : EntityTypeField),
          ⟨"", "occupancy", false, ""⟩,
          ⟨"", "temperature", false, ""⟩].filter fun f => !f.is_optional :=
  getFieldsForTypeName_required_filter demoUniverse "FACILITIES" "ROOM"
    [⟨"", "occupancy", false, ""⟩, ⟨"", "temperature", false, ""⟩]
    [⟨"", "humidity", true, ""⟩, ⟨"", "occupancy", false, ""⟩,
      ⟨"", "temperature", false, ""⟩]
    demo_fields_true demo_fields_false

/-- A canonical type whose fields come from two namespaces, with the
namespace order opposed to the name order. -/
def etPair : EntityType :=
  ⟨false, [⟨"b", "a", false, ""⟩, ⟨"a", "z", false, ""⟩], true, []⟩

/-- A universe holding only `etPair`. -/
def pairUniverse : ConfigUniverse :=
  ⟨[⟨[etPair]⟩], fun ns tn => if ns = "" ∧ tn = "PAIR" then some etPair else none⟩

/-- C5 counterexample: `GetFieldsForTypeName` sorts by the local field name
only, so the output `[(namespace b, name a), (namespace a, name z)]` is not
ascending in the `(namespace, name)` lexicographic order: the first
element's pair `("b", "a")` does not precede the second's `("a", "z")`. -/
theorem fields_not_sorted_by_pair :
    GetFieldsForTypeName pairUniverse "" "PAIR" false
      = Except.ok [⟨"b", "a", false, ""⟩, ⟨"a", "z", false, ""⟩]
    ∧ ¬ (("b" : String) < "a" ∨ ("b" : String) = "a" ∧ ("a" : String) ≤ "z") := by
  constructor
  · have hlook : pairUniverse.getEntityType "" "PAIR" = some etPair := by decide
    simp only [GetFieldsForTypeName, hlook, etPair]
    simp +decide [List.insertionSort, List.orderedInsert, fieldNameLe]
  · simp +decide

/-- C5 amended: every successful `GetFieldsForTypeName` output is sorted
ascending by the standard field name alone (the namespace plays no part in
the ordering, with input order kept on ties by the stable sort). -/
theorem getFieldsForTypeName_sorted_by_name :
    ∀ (u : ConfigUniverse) (ns tn : String) (ro : Bool)
      (l : List EntityTypeField),
      GetFieldsForTypeName u ns tn ro = Except.ok l →
      l.Sorted fieldNameLe := by
  intro u ns tn ro l h
  cases hlook : u.getEntityType ns tn with
  | none =>
    simp only [GetFieldsForTypeName, hlook] at h
    split at h <;> cases h
  | some et =>
    simp only [GetFieldsForTypeName, hlook] at h
    by_cases hexp : et.inherited_fields_expanded = false
    · rw [if_pos hexp] at h
      cases h
    · rw [if_neg hexp] at h
      rw [Except.ok.injEq] at h
      exact h ▸ List.sorted_insertionSort fieldNameLe _

/-- Witness for C5's amended claim on the worked-example type. -/
theorem getFieldsForTypeName_sorted_by_name_witness :
    ([(⟨"", "humidity", true, ""⟩ : EntityTypeField),
        ⟨"", "occupancy", false, ""⟩,
        ⟨"", "temperature", false, ""⟩] : List EntityTypeField).Sorted fieldNameLe :=
  getFieldsForTypeName_sorted_by_name demoUniverse "FACILITIES" "ROOM" false
    [⟨"", "humidity", true, ""⟩, ⟨"", "occupancy", false, ""⟩,
      ⟨"", "temperature", false, ""⟩] demo_fields_false

/-- A matchable type whose stored parent tag is mixed-case. -/
def etMixed : EntityType := ⟨false, [⟨"", "x", false, ""⟩], true, ["Chws"]⟩

/-- A universe holding only `etMixed`. -/
def mixedUniverse : ConfigUniverse := ⟨[⟨[etMixed]⟩], fun _ _ => none⟩

/-- C7 counterexample: the tag `"chws"` matches the stored parent tag
`"Chws"` case-insensitively (both uppercase to `"CHWS"`), and `etMixed` is
non-abstract with a non-empty field set in its universe, yet it is not a
candidate: the code only uppercases the tag and compares it verbatim
against the stored parent names. -/
theorem tag_filter_not_case_insensitive :
    (∃ p ∈ etMixed.unqualified_parent_names, upper p = upper "chws")
    ∧ etMixed.is_abstract = false
    ∧ etMixed.all_fields ≠ []
    ∧ (∃ tns ∈ mixedUniverse.type_namespaces, etMixed ∈ tns.valid_types_map)
    ∧ etMixed ∉ candidateTypes mixedUniverse (some "chws") := by
  refine ⟨⟨"Chws", by decide, by decide⟩, rfl, by decide, ?_, by decide⟩
  exact ⟨⟨[etMixed]⟩, by decide, by decide⟩

/-- C7 amended: a type is a candidate scored by `GetEntityTypesFromFields`
iff it occurs in some namespace of the universe, is not abstract, has a
non-empty field set, and — when a general-type tag is supplied — the
uppercased tag occurs verbatim among the type's unqualified parent names
(case-insensitive in the tag, but exact against the stored parent names). -/
theorem candidateTypes_membership :
    ∀ (u : ConfigUniverse) (gt : Option String) (et : EntityType),
      et ∈ candidateTypes u gt ↔
        (∃ tns ∈ u.type_namespaces, et ∈ tns.valid_types_map)
        ∧ et.is_abstract = false
        ∧ et.all_fields ≠ []
        ∧ (∀ g, gt = some g → upper g ∈ et.unqualified_parent_names) := by
  intro u gt et
  cases gt with
  | none =>
    simp [candidateTypes, List.mem_filter, List.mem_flatMap, and_assoc]
  | some g =>
    simp [candidateTypes, List.mem_filter, List.mem_flatMap, and_assoc]

/-- Witness for C7's amended claim: `etRoom` is a candidate in the demo
universe both with no tag and with the tag `"facilities"`. -/
theorem candidateTypes_membership_witness :
    etRoom ∈ candidateTypes demoUniverse (some "facilities") :=
  (candidateTypes_membership demoUniverse (some "facilities") etRoom).mpr
    ⟨⟨⟨[etRoom]⟩, by decide, by decide⟩, rfl, by decide,
      fun g hg => by cases hg; decide⟩

/-- Rebuilds a match on a different concrete field list, keeping the
canonical type and the score. -/
def reField (fl : List StandardField) (m : Match) : Match :=
  ⟨fl, m.entity_type, m.match_score⟩

lemma orderedInsert_reField (fl : List StandardField) (a : Match) :
    ∀ l : List Match,
      (l.map (reField fl)).orderedInsert Match.le (reField fl a)
        = (l.orderedInsert Match.le a).map (reField fl)
  | [] => rfl
  | b :: l => by
    by_cases h : Match.le a b
    · have h' : Match.le (reField fl a) (reField fl b) := h
      simp only [List.map_cons, List.orderedInsert, if_pos h, if_pos h',
        List.map_cons]
    · have h' : ¬ Match.le (reField fl a) (reField fl b) := h
      simp only [List.map_cons, List.orderedInsert, if_neg h, if_neg h']
      rw [orderedInsert_reField fl a l]

lemma insertionSort_reField (fl : List StandardField) :
    ∀ l : List Match,
      (l.map (reField fl)).insertionSort Match.le
        = (l.insertionSort Match.le).map (reField fl)
  | [] => rfl
  | a :: l => by
    simp only [List.map_cons, List.insertionSort]
    rw [insertionSort_reField fl l, orderedInsert_reField fl a]

lemma buildMatches_reField (l1 l2 : List StandardField)
    (h : l1.toFinset = l2.toFinset) :
    ∀ cands : List EntityType,
      buildMatches l2 cands
        = Except.map (List.map (reField l2)) (buildMatches l1 cands)
  | [] => rfl
  | et :: rest => by
    have hcm : CalculateMatchScore l2.toFinset et.all_fields.toFinset
        = CalculateMatchScore l1.toFinset et.all_fields.toFinset := by rw [h]
    simp only [buildMatches, CreateMatch, hcm]
    cases CalculateMatchScore l1.toFinset et.all_fields.toFinset with
    | error e => rfl
    | ok q =>
      rw [buildMatches_reField l1 l2 h rest]
      cases buildMatches l1 rest with
      | error e => rfl
      | ok ms => rfl

/-- C10: two concrete field lists with the same underlying set of
`StandardField`s (permutations, or duplicate-differing lists) give every
candidate type the same score: the `(entity type, score)` projections of the
two `GetEntityTypesFromFields` outputs coincide for every universe, tag and
best-fit flag, because `_CreateMatch` scores the `frozenset` of the list. -/
theorem scores_depend_only_on_field_set :
    ∀ (u : ConfigUniverse) (gt : Option String) (bf : Bool)
      (l1 l2 : List StandardField), l1.toFinset = l2.toFinset →
      Except.map (List.map fun m => (m.entity_type, m.match_score))
          (GetEntityTypesFromFields u l2 gt bf)
        = Except.map (List.map fun m => (m.entity_type, m.match_score))
            (GetEntityTypesFromFields u l1 gt bf) := by
  intro u gt bf l1 l2 h
  simp only [GetEntityTypesFromFields]
  rw [buildMatches_reField l1 l2 h]
  cases hb : buildMatches l1 (candidateTypes u gt) with
  | error e => rfl
  | ok l =>
    simp only [Except.map]
    rw [insertionSort_reField l2 l]
    cases bf with
    | false =>
      simp only [Bool.false_eq_true, if_false, Except.map, List.map_map]
      rfl
    | true =>
      simp only [if_true, Except.map]
      rw [List.filter_map]
      have hp : ((fun m => decide (match_score_threshold < m.match_score))
          ∘ reField l2) = fun m => decide (match_score_threshold < m.match_score) :=
        funext fun m => rfl
      rw [hp, List.map_map]
      rfl

/-- Witness for C10: the reversed worked-example field list scores the same
as the original on the demo universe. -/
theorem scores_depend_only_on_field_set_witness :
    Except.map (List.map fun m => (m.entity_type, m.match_score))
        (GetEntityTypesFromFields demoUniverse
          [⟨"", "occupancy"⟩, ⟨"", "temperature"⟩] none false)
      = Except.map (List.map fun m => (m.entity_type, m.match_score))
          (GetEntityTypesFromFields demoUniverse demoFieldList none false) :=
  scores_depend_only_on_field_set demoUniverse none false demoFieldList
    [⟨"", "occupancy"⟩, ⟨"", "temperature"⟩] (by decide)

end DBO
